import Mathlib

/-!
Verification of the socket-session / completion-listener layer and the
structural result parser of `python/PythonBinding.py`.

The Python code is shallowly embedded: strings are Lean `String`s, the
Python string operations used by the code (`in`, `split`, `replace`,
`rstrip`, `strip`, slicing) are re-implemented structurally on `List Char`
so that every definition is executable and reduces in the kernel, and the
stateful listener loop becomes explicit state passing over a `ListenerState`
record.  Side effects that do not touch the claims (mirroring chunks to
stdout, the actual TCP socket) are not modelled; the byte stream read from
the socket is passed in as an explicit list of received chunks.
-/

/-! ### Python string primitives -/

/-- Whitespace characters stripped by Python 2 `str.rstrip()` / `str.strip()`. -/
def isPySpace (c : Char) : Bool :=
  c = ' ' || c = '\t' || c = '\n' || c = '\r' || c = '\x0b' || c = '\x0c'

/-- Python `s.rstrip()`: remove trailing whitespace. -/
def pyRstrip (s : String) : String :=
  ⟨(s.data.reverse.dropWhile isPySpace).reverse⟩

/-- Python `s.strip()`: remove leading and trailing whitespace
(used by `int(...)` / `float(...)` conversions). -/
def stripList (s : List Char) : List Char :=
  ((s.dropWhile isPySpace).reverse.dropWhile isPySpace).reverse

/-- Substring test, Python `needle in hay` for strings. -/
def containsGo : List Char → List Char → Bool
  | [], needle => needle.isEmpty
  | c :: rest, needle => needle.isPrefixOf (c :: rest) || containsGo rest needle

/-- Python `needle in hay` on `String`. -/
def pyContainsStr (hay needle : String) : Bool :=
  containsGo hay.data needle.data

/-- Worker for Python `s.split(sep)` with non-empty separator: scan left to
right for the leftmost occurrence of `sep`; `acc` holds the current field in
reverse.  The fuel is the length of the scanned text, which bounds the number
of scanning steps since every step consumes at least one character; the
fuel-exhausted arm is unreachable from `pySplit`. -/
def splitGo (sep : List Char) : Nat → List Char → List Char → List (List Char)
  | _, acc, [] => [acc.reverse]
  | 0, acc, s => [acc.reverse ++ s]
  | fuel+1, acc, c :: rest =>
    if !sep.isEmpty && sep.isPrefixOf (c :: rest) then
      acc.reverse :: splitGo sep fuel [] ((c :: rest).drop sep.length)
    else
      splitGo sep fuel (c :: acc) rest

/-- Python `s.split(sep)` on character lists. -/
def pySplit (sep s : List Char) : List (List Char) :=
  splitGo sep s.length [] s

/-- Python `s.split(sep)` on `String`. -/
def pySplitStr (sep s : String) : List String :=
  (pySplit sep.data s.data).map (fun x => ⟨x⟩)

/-- Worker for Python `s.replace(pat, repl)` with non-empty pattern:
replace non-overlapping occurrences left to right.  The fuel is the length
of the scanned text; the fuel-exhausted arm is unreachable from
`pyReplaceStr` since every step consumes at least one character. -/
def replaceGo (pat repl : List Char) : Nat → List Char → List Char
  | _, [] => []
  | 0, s => s
  | fuel+1, c :: rest =>
    if !pat.isEmpty && pat.isPrefixOf (c :: rest) then
      repl ++ replaceGo pat repl fuel ((c :: rest).drop pat.length)
    else
      c :: replaceGo pat repl fuel rest

/-- Python `s.replace(pat, repl)` on `String`. -/
def pyReplaceStr (s pat repl : String) : String :=
  ⟨replaceGo pat.data repl.data s.data.length s.data⟩

/-! ### The fault-line pattern

`listenToSocketOutput` compiles `re.compile(r'.*java.lang.\w*Exception.*')`
and tests each line of each received chunk with `re_obj.match`.  Because of
the leading and trailing `.*` (which match any character except a newline),
`match` succeeds exactly when the portion of the line before its first
newline contains, at some position, the pattern
`"java" · anychar · "lang" · anychar · wordchars* · "Exception"`.
Lines produced by `split('\n')` never contain a newline, so restricting the
search to the text before the first newline is an exact model. -/

/-- Python regex `\w` without `re.UNICODE`: `[a-zA-Z0-9_]`. -/
def isWordChar (c : Char) : Bool :=
  ('a' ≤ c && c ≤ 'z') || ('A' ≤ c && c ≤ 'Z') || ('0' ≤ c && c ≤ '9') || c = '_'

/-- Does `s` start with `\w*Exception` (word characters followed by the
literal `Exception`)? -/
def wordExcSuffix : List Char → Bool
  | [] => false
  | c :: rest =>
    "Exception".data.isPrefixOf (c :: rest) || (isWordChar c && wordExcSuffix rest)

/-- Does `s` start with `java.lang.\w*Exception` (the two dots each matching
an arbitrary character)? -/
def javaLangExcAt : List Char → Bool
  | 'j' :: 'a' :: 'v' :: 'a' :: _ :: 'l' :: 'a' :: 'n' :: 'g' :: _ :: rest =>
    wordExcSuffix rest
  | _ => false

/-- Does the pattern occur anywhere in `s`? -/
def containsJavaExc : List Char → Bool
  | [] => false
  | c :: rest => javaLangExcAt (c :: rest) || containsJavaExc rest

/-- `re.match(r'.*java.lang.\w*Exception.*', line)` as a Boolean. -/
def reMatchJavaExc (line : String) : Bool :=
  containsJavaExc (line.data.takeWhile (fun c => c ≠ '\n'))

/-! ### The completion listener (`_CcsPythonExecutorThread`) -/

/-- The mutable attributes of `_CcsPythonExecutorThread` that the read loop
touches: the command id (`threadId`), the `running` flag, the accumulated
`executionOutput` buffer and the `java_exceptions` fault list. -/
structure ListenerState where
  threadId : String
  running : Bool
  executionOutput : String
  java_exceptions : List String
deriving DecidableEq, Repr

/-- State after `executePythonContent` set `running = True` and
`listenToSocketOutput` initialised `executionOutput = ""`
(`java_exceptions` is initialised to `[]` in `__init__`). -/
def initListener (tid : String) : ListenerState :=
  { threadId := tid, running := true, executionOutput := "", java_exceptions := [] }

/-- One iteration of the `while self.running` loop of
`listenToSocketOutput`, applied to one received chunk: append the
fault-matching lines of the chunk to `java_exceptions`, append the chunk to
`executionOutput`, and if the chunk contains `doneExecution:<threadId>`
clear `running` and strip every occurrence of the sentinel-plus-newline from
the accumulated buffer.  (The `sys.stdout.write` mirroring of non-sentinel
chunks is a side effect the claims do not touch and is not modelled.) -/
def processChunk (st : ListenerState) (chunk : String) : ListenerState :=
  if pyContainsStr chunk ("doneExecution:" ++ st.threadId) then
    { st with
      java_exceptions := st.java_exceptions ++ (pySplitStr "\n" chunk).filter reMatchJavaExc,
      running := false,
      executionOutput :=
        pyReplaceStr (st.executionOutput ++ chunk)
          ("doneExecution:" ++ st.threadId ++ "\n") "" }
  else
    { st with
      java_exceptions := st.java_exceptions ++ (pySplitStr "\n" chunk).filter reMatchJavaExc,
      executionOutput := st.executionOutput ++ chunk }

/-- The `while self.running: output = self.s.recv(1024); ...` loop, driven
by an explicit list of chunks delivered by the socket: chunks are consumed
in order as long as the listener is running; once `running` is cleared the
remaining chunks are never read. -/
def listenLoop (st : ListenerState) : List String → ListenerState
  | [] => st
  | c :: cs => if st.running then listenLoop (processChunk st c) cs else st

/-- Run a freshly spawned listener for command id `tid` over a chunk stream. -/
def runListener (tid : String) (chunks : List String) : ListenerState :=
  listenLoop (initListener tid) chunks

/-- The framed envelope written to the socket by `executePythonContent`:
`"startContent:" + threadId + "\n" + content + "\nendContent:" + threadId + "\n"`. -/
def executePythonContentMsg (threadId content : String) : String :=
  "startContent:" ++ threadId ++ "\n" ++ content ++ "\nendContent:" ++ threadId ++ "\n"

/-! ### Generic lemmas about the listener loop -/

/-- The lines of a chunk stream, as the listener sees them: each chunk is
split on newlines on its own (a line spanning a chunk boundary counts as two
partial lines, exactly as in the code). -/
def streamLines : List String → List String
  | [] => []
  | c :: cs => pySplitStr "\n" c ++ streamLines cs

/-- Concatenation of a chunk stream. -/
def pyConcat : List String → String
  | [] => ""
  | c :: cs => c ++ pyConcat cs

theorem str_append_nil (s : String) : s ++ "" = s := by
  cases s with
  | mk d => show String.mk (d ++ []) = String.mk d; rw [List.append_nil]

theorem str_nil_append (s : String) : "" ++ s = s := rfl

theorem str_append_assoc (a b c : String) : a ++ b ++ c = a ++ (b ++ c) := by
  cases a with
  | mk da =>
    cases b with
    | mk db =>
      cases c with
      | mk dc =>
        show String.mk (da ++ db ++ dc) = String.mk (da ++ (db ++ dc))
        rw [List.append_assoc]

theorem streamLines_append (as bs : List String) :
    streamLines (as ++ bs) = streamLines as ++ streamLines bs := by
  induction as with
  | nil => simp [streamLines]
  | cons c cs ih => simp [streamLines, ih]

theorem pyConcat_append (as bs : List String) :
    pyConcat (as ++ bs) = pyConcat as ++ pyConcat bs := by
  induction as with
  | nil => simp [pyConcat, str_nil_append]
  | cons c cs ih => simp [pyConcat, ih, str_append_assoc]

/-- A stopped listener never reads again. -/
theorem listenLoop_stopped (st : ListenerState) (cs : List String)
    (h : st.running = false) : listenLoop st cs = st := by
  cases cs with
  | nil => rfl
  | cons c rest => simp [listenLoop, h]

/-- The loop processes a concatenated stream piecewise. -/
theorem listenLoop_append (st : ListenerState) (as bs : List String) :
    listenLoop st (as ++ bs) = listenLoop (listenLoop st as) bs := by
  induction as generalizing st with
  | nil => rfl
  | cons a rest ih =>
    by_cases h : st.running = true
    · simp [listenLoop, h, ih]
    · have h' : st.running = false := by
        cases hr : st.running
        · rfl
        · exact absurd hr h
      simp [listenLoop, h', listenLoop_stopped _ _ h']

/-- Effect of one chunk that does not contain the listener's sentinel. -/
theorem processChunk_no_sentinel (st : ListenerState) (c : String)
    (h : pyContainsStr c ("doneExecution:" ++ st.threadId) = false) :
    processChunk st c =
      { st with
        java_exceptions := st.java_exceptions ++ (streamLines [c]).filter reMatchJavaExc,
        executionOutput := st.executionOutput ++ c } := by
  simp [processChunk, h, streamLines]

/-- Effect of one chunk that does contain the listener's sentinel. -/
theorem processChunk_sentinel (st : ListenerState) (c : String)
    (h : pyContainsStr c ("doneExecution:" ++ st.threadId) = true) :
    processChunk st c =
      { st with
        java_exceptions := st.java_exceptions ++ (streamLines [c]).filter reMatchJavaExc,
        running := false,
        executionOutput :=
          pyReplaceStr (st.executionOutput ++ c)
            ("doneExecution:" ++ st.threadId ++ "\n") "" } := by
  simp [processChunk, h, streamLines]

/-- While no received chunk contains the sentinel, the listener keeps
running, accumulates the concatenation of the chunks, and collects exactly
the fault-matching lines. -/
theorem listenLoop_no_sentinel (cs : List String) (st : ListenerState)
    (hr : st.running = true)
    (h : ∀ c ∈ cs, pyContainsStr c ("doneExecution:" ++ st.threadId) = false) :
    listenLoop st cs =
      { st with
        java_exceptions := st.java_exceptions ++ (streamLines cs).filter reMatchJavaExc,
        executionOutput := st.executionOutput ++ pyConcat cs } := by
  induction cs generalizing st with
  | nil =>
    simp [listenLoop, streamLines, pyConcat, str_append_nil]
  | cons c rest ih =>
    have hc : pyContainsStr c ("doneExecution:" ++ st.threadId) = false :=
      h c (List.mem_cons_self c rest)
    have step := processChunk_no_sentinel st c hc
    have hrest : ∀ x ∈ rest,
        pyContainsStr x ("doneExecution:" ++ (processChunk st c).threadId) = false := by
      intro x hx
      rw [step]
      exact h x (List.mem_cons_of_mem c hx)
    have hr' : (processChunk st c).running = true := by rw [step]; exact hr
    simp only [listenLoop, hr, if_true]
    rw [ih (processChunk st c) hr' hrest, step]
    simp [streamLines, pyConcat, str_append_assoc, List.filter_append]
    exact hr

/-- Claim C1: for a listener bound to id `"7"` that receives the single
chunk `"partial output\ndoneExecution:7\n"`, the final accumulated output is
`"partial output\n"` (the sentinel line has been removed from the buffer)
and the listener has stopped (`running = false`). -/
theorem claim_C1 :
    (runListener "7" ["partial output\ndoneExecution:7\n"]).executionOutput
      = "partial output\n" ∧
    (runListener "7" ["partial output\ndoneExecution:7\n"]).running = false := by
  decide

/-- Claim C2, counterexample: the code decides completion with the Python
substring test `"doneExecution:" + self.threadId in output`, so the ids
`"7"` and `"72"` are distinct yet a listener bound to `"7"` stops on a
chunk that is exactly the sentinel of `"72"` — contradicting "never
transitions to Stopped upon observing doneExecution:id2". -/
theorem claim_C2_counterexample :
    ("7" : String) ≠ "72" ∧
    pyContainsStr "doneExecution:72\n" ("doneExecution:" ++ "72") = true ∧
    (processChunk (initListener "7") "doneExecution:72\n").running = false := by
  decide

/-- Claim C2, amended: a running listener bound to `id1` transitions to
Stopped on a received chunk exactly when the chunk contains
`doneExecution:id1` as a substring.  In particular it never stops on a
chunk in which `doneExecution:id1` does not occur, but a chunk carrying the
sentinel of a different id `id2` does stop it whenever `doneExecution:id1`
happens to occur inside that text (for example when `id1` is a proper
prefix of `id2`). -/
theorem claim_C2_amended (st : ListenerState) (chunk : String)
    (hr : st.running = true) :
    (processChunk st chunk).running = false ↔
      pyContainsStr chunk ("doneExecution:" ++ st.threadId) = true := by
  cases h : pyContainsStr chunk ("doneExecution:" ++ st.threadId) with
  | false => rw [processChunk_no_sentinel st chunk h]; simp [hr]
  | true => rw [processChunk_sentinel st chunk h]; simp

theorem claim_C2_witness :
    (processChunk (initListener "9") "out\ndoneExecution:9\n").running = false ∧
    (processChunk (initListener "9") "out\ndoneExecution:8\n").running ≠ false :=
  ⟨(claim_C2_amended (initListener "9") "out\ndoneExecution:9\n" rfl).mpr (by decide),
   fun hcon =>
     absurd ((claim_C2_amended (initListener "9") "out\ndoneExecution:8\n" rfl).mp hcon)
       (by decide)⟩

/-- Claim C3: over the chunk stream a listener actually consumes (no chunk
before the last carries its sentinel), the final fault list is exactly the
fault-pattern-matching lines of the stream, one entry per matching line, in
stream order; in particular it is empty when no line matches. -/
theorem claim_C3 (tid : String) (cs : List String) (c : String)
    (h : ∀ x ∈ cs, pyContainsStr x ("doneExecution:" ++ tid) = false) :
    (runListener tid (cs ++ [c])).java_exceptions
      = (streamLines (cs ++ [c])).filter reMatchJavaExc := by
  have hmid := listenLoop_no_sentinel cs (initListener tid) rfl h
  have hrun : (listenLoop (initListener tid) cs).running = true := by
    rw [hmid]; rfl
  rw [runListener, listenLoop_append, hmid]
  show (listenLoop _ [c]).java_exceptions = _
  rw [streamLines_append, List.filter_append]
  cases hc : pyContainsStr c ("doneExecution:" ++ tid) with
  | false =>
    simp only [listenLoop, if_true]
    rw [processChunk_no_sentinel _ c (by simpa using hc)]
    simp [streamLines, initListener]
  | true =>
    simp only [listenLoop, if_true]
    rw [processChunk_sentinel _ c (by simpa using hc)]
    simp [streamLines, initListener]

theorem claim_C3_witness :
    (runListener "1"
        (["why java.lang.AException was seen\n", "java.lang.BException\nplain line\n"]
          ++ ["doneExecution:1\n"])).java_exceptions
      = ["why java.lang.AException was seen", "java.lang.BException"] := by
  rw [claim_C3 "1" ["why java.lang.AException was seen\n", "java.lang.BException\nplain line\n"]
        "doneExecution:1\n" (by decide)]
  decide

/-- Claim C4, round trip: dispatching body `"print(1+1)"` under id `"42"`
writes exactly the framed envelope to the socket, and a listener for `"42"`
fed the simulated echo chunk `"2\ndoneExecution:42\n"` ends stopped with
final accumulated output exactly `"2\n"`. -/
theorem claim_C4 :
    executePythonContentMsg "42" "print(1+1)"
      = "startContent:42\nprint(1+1)\nendContent:42\n" ∧
    (runListener "42" ["2\ndoneExecution:42\n"]).executionOutput = "2\n" ∧
    (runListener "42" ["2\ndoneExecution:42\n"]).running = false := by
  decide

/-- Claim C7: for every id and every body, the command written to the
socket by `executePythonContent` is exactly
`"startContent:" + id + "\n" + body + "\nendContent:" + id + "\n"`. -/
theorem claim_C7 (tid body : String) :
    executePythonContentMsg tid body
      = "startContent:" ++ tid ++ "\n" ++ body ++ "\nendContent:" ++ tid ++ "\n" := rfl

/-! ### Synchronous execution (`CcsJythonInterpreter.syncExecution`)

`syncExecution` sends the statement and then blocks in
`CcsExecutionResult.getOutput`, which polls `thread.running` and finally
returns `thread.executionOutput`; the fault list stays available to the
caller as `thread.java_exceptions`.  Nothing in `listenToSocketOutput` or
`getOutput` raises on a fault line.  The model returns `some (output,
faults)` when the listener stops on the given stream, and `none` when the
stream ends with the listener still running (the real call would block
forever polling). -/

def syncExecutionModel (tid : String) (chunks : List String) :
    Option (String × List String) :=
  if (runListener tid chunks).running then none
  else some ((runListener tid chunks).executionOutput,
             (runListener tid chunks).java_exceptions)

/-- Claim C8: a synchronous execution whose response stream contains
fault-matching lines still returns normally (`some …`), with the
accumulated output captured (the whole stream with the sentinel line
stripped) and every fault-matching line surfaced to the caller in the fault
list — fault detection never prevents the result from being returned. -/
theorem claim_C8 (tid : String) (cs : List String) (c : String)
    (h : ∀ x ∈ cs, pyContainsStr x ("doneExecution:" ++ tid) = false)
    (hc : pyContainsStr c ("doneExecution:" ++ tid) = true) :
    syncExecutionModel tid (cs ++ [c])
      = some (pyReplaceStr (pyConcat (cs ++ [c])) ("doneExecution:" ++ tid ++ "\n") "",
              (streamLines (cs ++ [c])).filter reMatchJavaExc) := by
  have hmid := listenLoop_no_sentinel cs (initListener tid) rfl h
  have hfin : runListener tid (cs ++ [c])
      = { threadId := tid, running := false,
          executionOutput :=
            pyReplaceStr (pyConcat (cs ++ [c])) ("doneExecution:" ++ tid ++ "\n") "",
          java_exceptions := (streamLines (cs ++ [c])).filter reMatchJavaExc } := by
    rw [runListener, listenLoop_append, hmid]
    show listenLoop _ [c] = _
    simp only [listenLoop, if_true]
    rw [processChunk_sentinel _ c (by simpa using hc)]
    rw [streamLines_append, List.filter_append, pyConcat_append]
    simp [streamLines, pyConcat, initListener, str_nil_append, str_append_nil]
  rw [syncExecutionModel, hfin]
  simp

theorem claim_C8_witness :
    syncExecutionModel "0" (["java.lang.XException happened\n"] ++ ["doneExecution:0\n"])
      = some ("java.lang.XException happened\n", ["java.lang.XException happened"]) := by
  rw [claim_C8 "0" ["java.lang.XException happened\n"] "doneExecution:0\n"
        (by decide) (by decide)]
  decide

/-! ### Connection establishment (`CcsJythonInterpreter.__init__` /
`_establishSocketConnection`)

`_establishSocketConnection` opens the socket, reads one greeting payload
with `recv(1024)`, raises `CcsException("Connection Refused")` when the
payload contains the substring `"ConnectionRefused"`, and otherwise returns
the socket.  `__init__` runs it before anything else; only afterwards, and
only when a `name` was supplied, does it call `syncExecution`, which is the
sole place a listener (`_CcsPythonExecutorThread`) gets created.  The raise
is modelled as `Except.error`; the socket the success path returns and the
set of listeners created during initialisation are recorded in
`SessionModel`. -/

structure SessionModel where
  connected : Bool
  listeners : List String
deriving DecidableEq, Repr

def establishSocketConnection (greeting : String) : Except String Unit :=
  if pyContainsStr greeting "ConnectionRefused" then
    Except.error "Connection Refused"
  else
    Except.ok ()

/-- `CcsJythonInterpreter.__init__`: connect first; on success, when a
session name was supplied, one executor thread (with fresh id `tid`) is
spawned by the `initializeInterpreter` round trip. -/
def ccsInit (greeting : String) (nm : Option String) (tid : String) :
    Except String SessionModel :=
  match establishSocketConnection greeting with
  | Except.error e => Except.error e
  | Except.ok _ =>
      Except.ok { connected := true,
                  listeners := match nm with | none => [] | some _ => [tid] }

/-- Claim C6: if the greeting payload contains `"ConnectionRefused"`,
initialisation fails with the Connection-Refused condition and no listener
is created (even when a session name would otherwise trigger one);
otherwise connect succeeds and returns the established socket. -/
theorem claim_C6 (greeting : String) (nm : Option String) (tid : String) :
    (pyContainsStr greeting "ConnectionRefused" = true →
      ccsInit greeting nm tid = Except.error "Connection Refused") ∧
    (pyContainsStr greeting "ConnectionRefused" = false →
      ccsInit greeting nm tid
        = Except.ok { connected := true,
                      listeners := match nm with | none => [] | some _ => [tid] }) := by
  constructor
  · intro h; simp [ccsInit, establishSocketConnection, h]
  · intro h; simp [ccsInit, establishSocketConnection, h]

theorem claim_C6_witness :
    ccsInit "ConnectionRefused" (some "sess") "t0" = Except.error "Connection Refused" ∧
    ccsInit "Welcome to CCS" none "t0"
      = Except.ok { connected := true, listeners := [] } :=
  ⟨(claim_C6 "ConnectionRefused" (some "sess") "t0").1 (by decide),
   (claim_C6 "Welcome to CCS" none "t0").2 (by decide)⟩

/-! ### The structural result parser (`SubsystemDispatcher._cast` /
`SubsystemDispatcher.default_parser`)

`default_parser` strips trailing whitespace; if the text starts with `'['`
it splits the interior slice `data[1:-1]` on `", "` and parses each token
recursively, otherwise it hands the text to `_cast`.  `_cast` tries
`float(token)` when the token contains `'.'`, `'e'` or `'E'` and
`int(token)` otherwise; a `ValueError` falls through to the literal
`True`/`False` checks and finally to returning the token unchanged.

Python's `float` produces an IEEE double; since the claims only involve
values that an exact decimal reading represents (`3.5`), the conversion is
modelled as an exact rational reading of the accepted decimal literal
grammar (sign, digits with optional fraction, optional exponent; the
special `inf`/`nan` spellings contain none of `'.'`, `'e'`, `'E'` and so
can never reach the float branch of `_cast`). -/

inductive PyVal where
  | int : Int → PyVal
  | float : ℚ → PyVal
  | bool : Bool → PyVal
  | str : String → PyVal
  | list : List PyVal → PyVal

def PyVal.isFloat : PyVal → Bool
  | .float _ => true
  | _ => false

def isDigitChar (c : Char) : Bool := '0' ≤ c && c ≤ '9'

def digitsVal (ds : List Char) : Nat :=
  ds.foldl (fun a c => a * 10 + (c.toNat - 48)) 0

/-- Python `int(s)` on a string: optional surrounding whitespace, optional
sign, one or more digits; anything else raises `ValueError` (`none`). -/
def pyInt? (s : String) : Option Int :=
  match stripList s.data with
  | '+' :: ds => if !ds.isEmpty && ds.all isDigitChar then some (digitsVal ds) else none
  | '-' :: ds => if !ds.isEmpty && ds.all isDigitChar then some (-(digitsVal ds : Int)) else none
  | ds => if !ds.isEmpty && ds.all isDigitChar then some (digitsVal ds) else none

/-- Digits of an exponent part with optional sign. -/
def expDigits : List Char → Option Int
  | '+' :: ds => if !ds.isEmpty && ds.all isDigitChar then some ((digitsVal ds : Int)) else none
  | '-' :: ds => if !ds.isEmpty && ds.all isDigitChar then some (-(digitsVal ds : Int)) else none
  | ds => if !ds.isEmpty && ds.all isDigitChar then some ((digitsVal ds : Int)) else none

/-- Exponent marker `e`/`E` followed by signed digits, consuming the whole
remaining text. -/
def exponentOf : List Char → Option Int
  | c :: rest => if c = 'e' || c = 'E' then expDigits rest else none
  | [] => none

/-- Mantissa: `digits [. digits]` or `. digits`, with at least one digit;
returns its exact value and the unconsumed remainder. -/
def mantissaOf (s : List Char) : Option (ℚ × List Char) :=
  match s.dropWhile isDigitChar with
  | '.' :: r2 =>
    if (s.takeWhile isDigitChar).isEmpty && (r2.takeWhile isDigitChar).isEmpty then none
    else
      some ((digitsVal (s.takeWhile isDigitChar) : ℚ)
              + (digitsVal (r2.takeWhile isDigitChar) : ℚ)
                / ((10 : ℚ) ^ (r2.takeWhile isDigitChar).length),
            r2.dropWhile isDigitChar)
  | r1 =>
    if (s.takeWhile isDigitChar).isEmpty then none
    else some ((digitsVal (s.takeWhile isDigitChar) : ℚ), r1)

def applyExp (m : ℚ) (e : Int) : ℚ :=
  if 0 ≤ e then m * (10 : ℚ) ^ e.toNat else m / (10 : ℚ) ^ (-e).toNat

/-- Python `float(s)` on a string, as an exact rational. -/
def pyFloat? (s : String) : Option ℚ :=
  match stripList s.data with
  | '+' :: r =>
    (mantissaOf r).bind fun mr =>
      match mr.2 with
      | [] => some mr.1
      | rest => (exponentOf rest).map fun e => applyExp mr.1 e
  | '-' :: r =>
    (mantissaOf r).bind fun mr =>
      match mr.2 with
      | [] => some (-mr.1)
      | rest => (exponentOf rest).map fun e => -(applyExp mr.1 e)
  | r =>
    (mantissaOf r).bind fun mr =>
      match mr.2 with
      | [] => some mr.1
      | rest => (exponentOf rest).map fun e => applyExp mr.1 e

/-- The `except ValueError` fallback of `_cast`: literal `True`/`False`
become booleans, anything else is returned unchanged as a string. -/
def castFallback (token : String) : PyVal :=
  if token = "True" then PyVal.bool true
  else if token = "False" then PyVal.bool false
  else PyVal.str token

/-- Does the token select the `float` conversion in `_cast`
(`token.find('.') != -1 or token.find('e') != -1 or token.find('E') != -1`)? -/
def hasFloatMarker (token : String) : Bool :=
  pyContainsStr token "." || pyContainsStr token "e" || pyContainsStr token "E"

/-- `SubsystemDispatcher._cast` (named `pyCast` here since a leading
underscore is not a valid Lean identifier). -/
def pyCast (token : String) : PyVal :=
  if hasFloatMarker token then
    match pyFloat? token with
    | some q => PyVal.float q
    | none => castFallback token
  else
    match pyInt? token with
    | some n => PyVal.int n
    | none => castFallback token

/-- Python `data.startswith('[')`. -/
def startsBracket (d : String) : Bool :=
  match d.data with
  | '[' :: _ => true
  | _ => false

/-- Python `data[1:-1]`. -/
def pyInterior (d : String) : String :=
  ⟨(d.data.drop 1).dropLast⟩

/-- `SubsystemDispatcher.default_parser` with explicit recursion fuel:
strip trailing whitespace; a bracketed text splits its interior on `", "`
and parses every token recursively, anything else goes to `_cast`.  Every
recursive call is on a token strictly shorter than the input (the interior
slice drops the two brackets), so `s.length + 1` units of fuel always
suffice and the fuel-exhausted arm is unreachable from `defaultParser`;
`claim_C9` proves this fuel-independence. -/
def defaultParserAux : Nat → String → PyVal
  | 0, s => PyVal.str s
  | fuel+1, s =>
    if startsBracket (pyRstrip s) then
      PyVal.list ((pySplitStr ", " (pyInterior (pyRstrip s))).map (defaultParserAux fuel))
    else
      pyCast (pyRstrip s)

/-- `SubsystemDispatcher.default_parser` (Lean identifiers cannot carry the
Python snake-case name verbatim here). -/
def defaultParser (s : String) : PyVal :=
  defaultParserAux (s.length + 1) s

/-! ### Termination structure of the recursive parser -/

theorem dropWhile_length_le (p : Char → Bool) (l : List Char) :
    (l.dropWhile p).length ≤ l.length := by
  induction l with
  | nil => simp [List.dropWhile]
  | cons c cs ih =>
    simp only [List.dropWhile]
    split
    · exact le_trans ih (by simp)
    · simp

/-- Every field produced by the split scanner is no longer than the current
accumulator plus the remaining text. -/
theorem splitGo_mem_length (sep : List Char) :
    ∀ (fuel : Nat) (acc s t : List Char),
      t ∈ splitGo sep fuel acc s → t.length ≤ acc.length + s.length := by
  intro fuel
  induction fuel with
  | zero =>
    intro acc s t ht
    cases s with
    | nil =>
      simp [splitGo] at ht
      subst ht; simp
    | cons c rest =>
      simp [splitGo] at ht
      subst ht; simp
  | succ n ih =>
    intro acc s t ht
    cases s with
    | nil =>
      simp [splitGo] at ht
      subst ht; simp
    | cons c rest =>
      rw [splitGo] at ht
      by_cases hp : (!sep.isEmpty && sep.isPrefixOf (c :: rest)) = true
      · rw [if_pos hp] at ht
        rcases List.mem_cons.mp ht with h1 | h2
        · subst h1; simp
        · have := ih [] ((c :: rest).drop sep.length) t h2
          simp [List.length_drop] at this
          simp
          omega
      · rw [if_neg hp] at ht
        have := ih (c :: acc) rest t ht
        simp at this
        simp
        omega

/-- Each token of the recursive-case split of `default_parser` is strictly
shorter than the original input: the interior slice `data[1:-1]` drops the
bracket. -/
theorem rstrip_data_length_le (s : String) :
    (pyRstrip s).data.length ≤ s.data.length := by
  show ((s.data.reverse.dropWhile isPySpace).reverse).length ≤ s.data.length
  rw [List.length_reverse]
  calc (s.data.reverse.dropWhile isPySpace).length
      ≤ s.data.reverse.length := dropWhile_length_le _ _
    _ = s.data.length := List.length_reverse _

theorem parser_token_lt (s t : String)
    (hb : startsBracket (pyRstrip s) = true)
    (ht : t ∈ pySplitStr ", " (pyInterior (pyRstrip s))) : t.length < s.length := by
  obtain ⟨x, hx, hmk⟩ := List.mem_map.mp ht
  have htx : t.length = x.length := by rw [← hmk]; rfl
  have hxlen : x.length ≤ (pyInterior (pyRstrip s)).data.length := by
    have := splitGo_mem_length (", ".data) (pyInterior (pyRstrip s)).data.length
      [] (pyInterior (pyRstrip s)).data x hx
    simpa using this
  have hint : (pyInterior (pyRstrip s)).data.length
      = (pyRstrip s).data.length - 1 - 1 := by
    show (((pyRstrip s).data.drop 1).dropLast).length = _
    rw [List.length_dropLast, List.length_drop]
  have hpos : 1 ≤ (pyRstrip s).data.length := by
    cases hdd : (pyRstrip s).data with
    | nil =>
      rw [startsBracket, hdd] at hb
      exact absurd hb (by decide)
    | cons c tail => simp
  have hle := rstrip_data_length_le s
  have hs : s.length = s.data.length := rfl
  omega

/-- The recursion fuel of `defaultParserAux` is irrelevant as soon as it
exceeds the input length: this is the termination argument of
`default_parser` made explicit. -/
theorem defaultParserAux_fuel_irrel :
    ∀ (f1 : Nat) (s : String) (f2 : Nat), s.length < f1 → s.length < f2 →
      defaultParserAux f1 s = defaultParserAux f2 s := by
  intro f1
  induction f1 with
  | zero => intro s f2 h1 h2; omega
  | succ n ih =>
    intro s f2 h1 h2
    cases f2 with
    | zero => omega
    | succ m =>
      simp only [defaultParserAux]
      by_cases hb : startsBracket (pyRstrip s) = true
      · rw [if_pos hb, if_pos hb]
        congr 1
        apply List.map_congr_left
        intro t htm
        have hlt := parser_token_lt s t hb htm
        exact ih t m (by omega) (by omega)
      · rw [if_neg hb, if_neg hb]

/-- Claim C9: `default_parser` and `_cast` are total terminating functions
on strings.  Totality is witnessed by the definitions themselves (every
conversion failure is an explicit `none`/fallback, never an error); the
first conjunct shows the recursion fuel does not matter once it exceeds the
input length, the second that every recursive call processes a strictly
shorter token, and the remaining conjuncts evaluate the parser on the empty
string and on unbalanced and nested bracket inputs. -/
theorem claim_C9 :
    (∀ (f1 f2 : Nat) (s : String), s.length < f1 → s.length < f2 →
        defaultParserAux f1 s = defaultParserAux f2 s) ∧
    (∀ (s t : String), startsBracket (pyRstrip s) = true →
        t ∈ pySplitStr ", " (pyInterior (pyRstrip s)) → t.length < s.length) ∧
    defaultParser "" = PyVal.str "" ∧
    defaultParser "[" = PyVal.list [PyVal.str ""] ∧
    defaultParser "[[" = PyVal.list [PyVal.str ""] ∧
    defaultParser "[[]]" = PyVal.list [PyVal.list [PyVal.str ""]] :=
  ⟨fun f1 f2 s h1 h2 => defaultParserAux_fuel_irrel f1 s f2 h1 h2,
   fun s t hb ht => parser_token_lt s t hb ht, rfl, rfl, rfl, rfl⟩

theorem claim_C9_witness :
    defaultParserAux 4 "[1]" = defaultParserAux 9 "[1]" ∧
    ("1" : String).length < ("[1]" : String).length :=
  ⟨claim_C9.1 4 9 "[1]" (by decide) (by decide),
   claim_C9.2.1 "[1]" "1" (by decide) (by decide)⟩

/-- Claim C10: `default_parser("[]")` yields the one-element list `['']`
rather than the empty list: the bracket-stripped interior is the empty
string, which splits into one empty token that falls through the casts as a
string. -/
theorem claim_C10 : defaultParser "[]" = PyVal.list [PyVal.str ""] := rfl

/-- Claim C5, counterexample: the token `"a.b"` contains a decimal point
yet does not parse as a float — `float("a.b")` raises `ValueError` and
`_cast` returns the token unchanged as a string — so "tokens containing a
decimal point or exponent marker parse as floats" is false as stated. -/
theorem claim_C5_counterexample :
    hasFloatMarker "a.b" = true ∧ pyCast "a.b" = PyVal.str "a.b" ∧
    (pyCast "a.b").isFloat = false :=
  ⟨rfl, rfl, rfl⟩

/-- Claim C5, amended: `"3"` parses to integer 3, `"3.5"` to the float
value 7/2, `"True"`/`"False"` to booleans, `"[1, 2, 3]"` to the
three-element integer list; a token containing a decimal point or exponent
marker selects the float conversion attempt and all other tokens the int
conversion attempt, and when the selected conversion fails the literal
`True`/`False` tokens map to booleans and anything else passes through
unchanged as a string. -/
theorem claim_C5_amended :
    defaultParser "3" = PyVal.int 3 ∧
    defaultParser "3.5" = PyVal.float (7 / 2) ∧
    defaultParser "True" = PyVal.bool true ∧
    defaultParser "False" = PyVal.bool false ∧
    defaultParser "[1, 2, 3]" = PyVal.list [PyVal.int 1, PyVal.int 2, PyVal.int 3] ∧
    (∀ token : String, hasFloatMarker token = true →
        pyCast token = match pyFloat? token with
          | some q => PyVal.float q
          | none => castFallback token) ∧
    (∀ token : String, hasFloatMarker token = false →
        pyCast token = match pyInt? token with
          | some n => PyVal.int n
          | none => castFallback token) ∧
    (∀ token : String, token ≠ "True" → token ≠ "False" →
        castFallback token = PyVal.str token) := by
  refine ⟨rfl, ?_, rfl, rfl, rfl, ?_, ?_, ?_⟩
  · have h1 : defaultParser "3.5"
        = PyVal.float ((digitsVal ['3'] : ℚ) + (digitsVal ['5'] : ℚ) / 10 ^ 1) := rfl
    have e1 : digitsVal ['3'] = 3 := rfl
    have e2 : digitsVal ['5'] = 5 := rfl
    rw [h1, e1, e2]
    congr 1
    norm_num
  · intro token h; simp [pyCast, h]
  · intro token h; simp [pyCast, h]
  · intro token h1 h2; simp [castFallback, h1, h2]

theorem claim_C5_witness :
    pyCast "2.x" = PyVal.str "2.x" ∧ castFallback "zzz" = PyVal.str "zzz" :=
  ⟨(claim_C5_amended.2.2.2.2.2.1 "2.x" (by decide)).trans rfl,
   claim_C5_amended.2.2.2.2.2.2.2 "zzz" (by decide) (by decide)⟩
